import Mathlib

/-!
Verification development for the promptflow batch execution orchestrator
(`src/promptflow/promptflow/batch/_batch_engine.py`) and the test helper
`AttrDict` (`src/promptflow-tools/tests/utils.py`).

The Python code is shallowly embedded: JSON-ish values become `Val`, Python
dicts become association lists, exceptions become `Except`, the asyncio
supervisor loop of `_exec_in_task` becomes a fuel-indexed recursion over an
abstract poll trace, and the completion order of the concurrently running
line tasks is an explicit permutation parameter.
-/

/-- `Status` from promptflow.contracts.run_info, restricted to the three
statuses the batch engine manipulates. -/
inductive Status where
  | Completed
  | Failed
  | Canceled
deriving DecidableEq, Repr

/-- A JSON-ish value stored in an input row, an output mapping or an
aggregation-input mapping. -/
inductive Val where
  | VStr (s : String)
  | VInt (n : Int)
deriving DecidableEq, Repr

/-- A Python dict with string keys, embedded as an association list
(keys unique in actual promptflow data; stated as a hypothesis where it
matters). -/
abbrev Input := List (String × Val)

/-- Column-shaped data: a dict mapping a key to the ordered list of values
of that key across several lines. -/
abbrev Columns := List (String × List Val)

/-- Dict lookup: value of the first entry with the given key. -/
def lookupVal (k : String) (d : Input) : Option Val :=
  (d.find? (fun p => p.1 == k)).map Prod.snd

/-- The run info carried by a `LineResult` (`r.run_info` in the code):
the line index, its status, and the recorded error cause for failed
lines. -/
structure RunInfo where
  index : Nat
  status : Status
  error : Option String
deriving DecidableEq, Repr

/-- `LineResult` from promptflow.executor._result: per-line run info, the
produced output mapping and the aggregation-input mapping. -/
structure LineResult where
  run_info : RunInfo
  output : Input
  aggregation_inputs : Input
deriving DecidableEq, Repr

/-- `AggregationResult(output, metrics, node_run_infos)` from
promptflow.executor._result. -/
structure AggregationResult where
  output : Input
  metrics : Input
  node_run_infos : Input
deriving DecidableEq, Repr

deriving instance DecidableEq for Except

/-- `AggregationResult({}, {}, {})`: the empty aggregation result the
engine uses both as the initial `_aggr_results` value and as the result
when no aggregation nodes are declared. -/
def emptyAggregationResult : AggregationResult := ⟨[], [], []⟩

/-- The declared type of a flow input (promptflow.contracts.tool.ValueType,
restricted to the two types the embedding needs). -/
inductive ValueType where
  | vtInt
  | vtString
deriving DecidableEq, Repr

/-- A node of the flow graph; `aggregation` tags aggregation nodes
(promptflow.contracts.flow.Node). -/
structure FlowNode where
  name : String
  aggregation : Bool
deriving DecidableEq, Repr

/-- The parts of `Flow` (promptflow.contracts.flow) the batch engine reads:
declared inputs with their types, the nodes, and the aggregation-input
property names returned by `get_aggregation_inputs_properties`.  Named
`PFlow` here only because the name `Flow` is already taken by the ambient
library. -/
structure PFlow where
  inputs : List (String × ValueType)
  nodes : List FlowNode
  aggregationInputKeys : List String
deriving DecidableEq, Repr

/-- `BatchResult` (promptflow.batch._result): the final immutable run
summary. -/
structure BatchResult where
  startTime : Nat
  endTime : Nat
  status : Status
  lineResults : List LineResult
  aggrResults : AggregationResult
deriving DecidableEq, Repr

/-- Modelled from the spec: `BatchResult.create(start, end, line_results,
aggr_results, status=...)` (promptflow.batch._result, not part of the
provided sources).  Per the spec the summary carries start time, end time,
overall status, the line results and the aggregation results; when no
explicit status is passed the overall status is derived from the line
results (`Failed` when some line failed, else `Completed`). -/
def BatchResult.create (startT endT : Nat) (lrs : List LineResult)
    (aggr : AggregationResult) (status : Option Status) : BatchResult :=
  { startTime := startT
    endTime := endT
    status := status.getD
      (if lrs.any (fun r => r.run_info.status == Status.Failed) then Status.Failed
       else Status.Completed)
    lineResults := lrs
    aggrResults := aggr }

/-- `DEFAULT_CONCURRENCY = 16` (line 37 of `_batch_engine.py`). -/
def DEFAULT_CONCURRENCY : Nat := 16

/-- `OUTPUT_FILE_NAME = "output.jsonl"` (line 36 of `_batch_engine.py`). -/
def OUTPUT_FILE_NAME : String := "output.jsonl"

/-- `LINE_NUMBER_KEY` from promptflow._constants: the key under which a
persisted output record carries its line index. -/
def LINE_NUMBER_KEY : String := "line_number"

/-- The list of line tasks `_exec_batch` creates before entering its
completion loop (lines 223-226): one `asyncio.create_task` per input line,
in index order, each started eagerly at creation.  The executor proxy's
`exec_line_async` is the pure parameter `f`: it receives the line inputs
and the 0-based index and yields that line's `LineResult`. -/
def createdLineTasks (f : Input → Nat → LineResult) (batch_inputs : List Input) :
    List LineResult :=
  (batch_inputs.enum).map (fun p => f p.2 p.1)

/-- Comparison used by `sorted(self._line_results, key=lambda r:
r.run_info.index)` at line 243. -/
def leIdx (a b : LineResult) : Prop := a.run_info.index ≤ b.run_info.index

instance : DecidableRel leIdx :=
  fun a b => inferInstanceAs (Decidable (a.run_info.index ≤ b.run_info.index))

instance : IsTotal LineResult leIdx := ⟨fun _ _ => Nat.le_total _ _⟩

instance : IsTrans LineResult leIdx := ⟨fun _ _ _ h h' => Nat.le_trans h h'⟩

/-- Strict version of `leIdx`, used to show sorted line-result lists with
distinct indices are unique. -/
def ltIdx (a b : LineResult) : Prop := a.run_info.index < b.run_info.index

instance : IsAntisymm LineResult ltIdx :=
  ⟨fun _ _ h h' => absurd h' (Nat.lt_asymm h)⟩

/-- `BatchEngine._exec_batch` (lines 216-243): all line tasks are created
up front, the loop collects completions until all lines are done, and the
collected results are returned sorted by line index.  `order` is the
order in which the line tasks complete (a permutation of the line
positions); the collected list is `_line_results` grown in completion
order, and the returned value is `sorted(..., key=index)`.  The
`asyncio.Semaphore(DEFAULT_CONCURRENCY)` constructed afresh at line 230 is
acquired only by the supervisor coroutine itself, never by the line tasks,
so it plays no part in which line executions run. -/
def exec_batch (f : Input → Nat → LineResult) (batch_inputs : List Input)
    (order : List Nat) : List LineResult :=
  let tasks := createdLineTasks f batch_inputs
  let collected := order.filterMap (fun i => tasks.get? i)
  List.insertionSort leIdx collected

/-- For any list, indexing `range l.length` back into the list recovers the
list. -/
theorem filterMap_get_range (l : List α) :
    (List.range l.length).filterMap (fun i => l.get? i) = l := by
  induction l with
  | nil => rfl
  | cons a t ih =>
    rw [List.length_cons, List.range_succ_eq_map, List.filterMap_cons,
      List.filterMap_map]
    simp only [List.get?_cons_zero, Function.comp_def, List.get?_cons_succ]
    rw [ih]

/-- The indices of the tasks created by `_exec_batch` are exactly
`0..N-1`, provided the executor returns each line result tagged with the
index it was given. -/
theorem createdLineTasks_map_index (f : Input → Nat → LineResult)
    (batch_inputs : List Input)
    (hexec : ∀ inp i, (f inp i).run_info.index = i) :
    (createdLineTasks f batch_inputs).map (fun r => r.run_info.index) =
      List.range batch_inputs.length := by
  unfold createdLineTasks
  rw [List.map_map, ← List.enum_map_fst batch_inputs]
  exact List.map_congr_left (fun p _ => hexec p.2 p.1)

/-- The created task list is strictly sorted by index. -/
theorem createdLineTasks_pairwise (f : Input → Nat → LineResult)
    (batch_inputs : List Input)
    (hexec : ∀ inp i, (f inp i).run_info.index = i) :
    (createdLineTasks f batch_inputs).Pairwise ltIdx := by
  have h := createdLineTasks_map_index f batch_inputs hexec
  have hr : ((createdLineTasks f batch_inputs).map
      (fun r => r.run_info.index)).Pairwise (· < ·) := by
    rw [h]; exact List.pairwise_lt_range _
  have hr' := List.pairwise_map.mp hr
  exact hr'.imp (fun hab => hab)

/-- Whatever the completion order, the list `_exec_batch` collects is a
permutation of the full task list. -/
theorem exec_batch_collected_perm (f : Input → Nat → LineResult)
    (batch_inputs : List Input) (order : List Nat)
    (horder : order.Perm (List.range batch_inputs.length)) :
    (order.filterMap (fun i => (createdLineTasks f batch_inputs).get? i)).Perm
      (createdLineTasks f batch_inputs) := by
  have hlen : (createdLineTasks f batch_inputs).length = batch_inputs.length := by
    simp [createdLineTasks]
  have h1 := horder.filterMap (fun i => (createdLineTasks f batch_inputs).get? i)
  have h2 : (List.range batch_inputs.length).filterMap
      (fun i => (createdLineTasks f batch_inputs).get? i) =
      createdLineTasks f batch_inputs := by
    rw [← hlen]; exact filterMap_get_range _
  exact h1.trans (by rw [h2])

/-- Helper: a list sorted by `leIdx` whose indices are pairwise distinct is
strictly sorted. -/
theorem pairwise_lt_of_sorted_nodup (l : List LineResult)
    (hs : l.Pairwise leIdx)
    (hn : (l.map (fun r => r.run_info.index)).Nodup) :
    l.Pairwise ltIdx := by
  have hn' : (l.map (fun r => r.run_info.index)).Pairwise (· ≠ ·) := hn
  have hne := List.pairwise_map.mp hn'
  exact (hs.and hne).imp (fun h => Nat.lt_of_le_of_ne h.1 h.2)

/-- Core correctness of `_exec_batch`: whatever the completion order of the
line tasks, the returned list is exactly the canonical task list — one
result per input line, in ascending index order. -/
theorem exec_batch_eq_canonical (f : Input → Nat → LineResult)
    (batch_inputs : List Input) (order : List Nat)
    (hexec : ∀ inp i, (f inp i).run_info.index = i)
    (horder : order.Perm (List.range batch_inputs.length)) :
    exec_batch f batch_inputs order = createdLineTasks f batch_inputs := by
  unfold exec_batch
  set tasks := createdLineTasks f batch_inputs with htasks
  set collected := order.filterMap (fun i => tasks.get? i) with hcoll
  have hperm : collected.Perm tasks :=
    exec_batch_collected_perm f batch_inputs order horder
  have hsortperm : (List.insertionSort leIdx collected).Perm tasks :=
    (List.perm_insertionSort leIdx collected).trans hperm
  have hcanon : tasks.Pairwise ltIdx :=
    createdLineTasks_pairwise f batch_inputs hexec
  have hnodup : ((List.insertionSort leIdx collected).map
      (fun r => r.run_info.index)).Nodup := by
    have := (hsortperm.map (fun r => r.run_info.index)).nodup_iff
    rw [this, createdLineTasks_map_index f batch_inputs hexec]
    exact List.nodup_range _
  have hsorted : (List.insertionSort leIdx collected).Pairwise ltIdx :=
    pairwise_lt_of_sorted_nodup _ (List.sorted_insertionSort leIdx collected) hnodup
  exact List.eq_of_perm_of_sorted hsortperm hsorted hcanon

/-- The Python exception values escalated past the batch engine.  `pf` is a
`PromptflowException` (already classified; `cause` records the class name
and message of the original exception when the engine wrapped one);
`other` is any other exception, identified by its class name and its
message. -/
inductive PyExc where
  | pf (message : String) (cause : Option (String × String))
  | other (clsName : String) (message : String)
deriving DecidableEq, Repr

/-- The `except` clause of `BatchEngine.run` (lines 142-155): a
`PromptflowException` is re-raised as-is; any other exception is wrapped
into an `UnexpectedError` (itself a `PromptflowException`) whose formatted
message carries the original exception's class name and message, with the
original preserved as the cause (`raise unexpected_error from e`). -/
def wrapRunError (e : PyExc) : PyExc :=
  match e with
  | .pf m c => .pf m c
  | .other cls msg =>
      .pf ("Unexpected error occurred while executing the batch run. Error: (" ++
        cls ++ ") " ++ msg ++ ".") (some (cls, msg))

/-- The `except` clauses of `BatchEngine._exec_aggregation` (lines
278-289): a `PromptflowException` is re-raised directly; any other
exception is wrapped into an `UnexpectedError` whose formatted message
carries the original class name and message, with the original as the
cause. -/
def wrapAggregationError (e : PyExc) : PyExc :=
  match e with
  | .pf m c => .pf m c
  | .other cls msg =>
      .pf ("Unexpected error occurred while executing the aggregated nodes. " ++
        "Please fix or contact support for assistance. The error details: (" ++
        cls ++ ") " ++ msg ++ ".") (some (cls, msg))

/-- `BatchEngine.run` (lines 128-157).  `bodyOutcome` is the outcome of the
try-block body (input resolution plus `_exec_in_task`, lines 129-141):
either a `BatchResult` or a raised exception.  The returned `Nat` counts
the calls the `finally` block makes to `self._executor_proxy.destroy()`;
the block runs once on every exit path — normal return, re-raised
`PromptflowException`, and wrapped unexpected error alike. -/
def run (bodyOutcome : Except PyExc BatchResult) :
    (Except PyExc BatchResult) × Nat :=
  (match bodyOutcome with
   | .ok br => .ok br
   | .error e => .error (wrapRunError e), 1)

/-- One decimal digit of a stringified number. -/
def charDigit (c : Char) : Option Nat :=
  if c.isDigit then some (c.toNat - 48) else none

/-- The value of a run of decimal digits. -/
def digitsToNat (cs : List Char) : Option Nat :=
  cs.foldl (fun acc c => acc.bind (fun n => (charDigit c).map (fun d => 10 * n + d)))
    (some 0)

/-- Executable decimal parser for stringified integers (an in-file stand-in
for Python's `int(...)`, written out so that proofs can evaluate it). -/
def strToInt (s : String) : Option Int :=
  match s.data with
  | [] => none
  | c :: cs =>
    if c = '-' then (digitsToNat cs).map (fun n => -(n : Int))
    else (digitsToNat (c :: cs)).map (fun n => (n : Int))

/-- Modelled from the spec: `FlowValidator.ensure_flow_inputs_type`
(promptflow.executor.flow_validator, not part of the provided sources).
Per the spec it re-validates/coerces each line's input against the flow's
declared input types before aggregation, e.g. turning stringified numbers
into numbers. -/
def resolveValue (t : ValueType) (v : Val) : Val :=
  match t, v with
  | .vtInt, .VStr s => match strToInt s with | some n => .VInt n | none => .VStr s
  | _, v => v

/-- Modelled from the spec: coercion of a whole input row by
`FlowValidator.ensure_flow_inputs_type` — each declared input's value is
coerced to its declared type; keys are unchanged. -/
def ensure_flow_inputs_type (flow : PFlow) (inputs : Input) : Input :=
  inputs.map (fun p =>
    match (flow.inputs.find? (fun q => q.1 == p.1)).map Prod.snd with
    | some t => (p.1, resolveValue t p.2)
    | none => p)

/-- Modelled from the spec: `transpose(values, keys)`
(promptflow._utils.utils, not part of the provided sources) reshapes a
list of rows into per-key columns, mapping each key to the ordered
sequence of that key's value across the rows. -/
def transpose (values : List Input) (keys : List String) : Columns :=
  keys.map (fun k => (k, values.filterMap (fun v => lookupVal k v)))

/-- Modelled from the spec: `collect_lines(indexes, kvs)`
(promptflow._utils.execution_utils, not part of the provided sources)
restricts each column of `kvs` to the rows at the given indexes,
preserving their order. -/
def collect_lines (indexes : List Nat) (kvs : Columns) : Columns :=
  kvs.map (fun p => (p.1, indexes.filterMap (fun i => p.2.get? i)))

/-- Line 258 of `_exec_aggregation`: the positions (into the line-result
list) of the lines whose status is `Completed`, in ascending order. -/
def succeededPositions (lrs : List LineResult) : List Nat :=
  ((lrs.enum).filter (fun p => p.2.run_info.status == Status.Completed)).map Prod.fst

/-- Lines 260-265 of `_exec_aggregation`: the per-input-key columns handed
to the executor's aggregation entry point — the successful lines' inputs,
coerced by `ensure_flow_inputs_type`, transposed over the flow's declared
input names. -/
def succeededInputsColumns (flow : PFlow) (batch_inputs : List Input)
    (lrs : List LineResult) : Columns :=
  transpose
    (((succeededPositions lrs).filterMap (fun i => batch_inputs.get? i)).map
      (fun inp => ensure_flow_inputs_type flow inp))
    (flow.inputs.map Prod.fst)

/-- Lines 267-271 of `_exec_aggregation`: the per-aggregation-input-key
columns — all lines' `aggregation_inputs` transposed over the flow's
aggregation-input property names, then restricted to the successful
positions by `collect_lines`. -/
def succeededAggregationColumns (flow : PFlow) (lrs : List LineResult) : Columns :=
  collect_lines (succeededPositions lrs)
    (transpose (lrs.map (fun r => r.aggregation_inputs)) flow.aggregationInputKeys)

/-- `BatchEngine._exec_aggregation` (lines 245-289).  `exec_aggr` is the
executor proxy's `exec_aggregation_async`, which may raise (`Except.error`).
If the flow declares no aggregation node the empty `AggregationResult` is
returned at once and the executor is never consulted; otherwise the
executor is invoked on the two successful-lines column sets and its
exceptions are classified by `wrapAggregationError`. -/
def exec_aggregation (flow : PFlow)
    (exec_aggr : Columns → Columns → Except PyExc AggregationResult)
    (batch_inputs : List Input) (lrs : List LineResult) :
    Except PyExc AggregationResult :=
  if (flow.nodes.filter (fun n => n.aggregation)).isEmpty then
    .ok emptyAggregationResult
  else
    (exec_aggr (succeededInputsColumns flow batch_inputs lrs)
      (succeededAggregationColumns flow lrs)).mapError wrapAggregationError

/-- Modelled from the spec: the message of the aggregated error raised by
`handle_line_failures` — it summarizes the failing line indices and their
recorded causes. -/
def lineFailureMessage (failures : List RunInfo) : String :=
  "Failed to run the batch run. Failed lines: " ++
    toString (failures.map (fun r => r.index)) ++ ". Causes: " ++
    String.intercalate "; " (failures.map (fun r => r.error.getD "unknown")) ++ "."

/-- Modelled from the spec: `handle_line_failures(run_infos,
raise_on_line_failure)` (promptflow._utils.execution_utils, not part of the
provided sources).  Per the spec, when `raise_on_line_failure` is set and
at least one line has `Failed` status, the run fails with a single
aggregated error summarizing all failing line indices and causes; when the
flag is clear, failed lines stay recorded in the results and execution
continues. -/
def handle_line_failures (run_infos : List RunInfo)
    (raise_on_line_failure : Bool) : Except PyExc Unit :=
  let failures := run_infos.filter (fun r => r.status == Status.Failed)
  if raise_on_line_failure && !failures.isEmpty then
    .error (.pf (lineFailureMessage failures) none)
  else .ok ()

/-- One entry of a Python dict literal update: `d[k] = v` semantics —
replace the value of an existing key in place, else append the new pair. -/
def updateAssoc (d : Input) (kv : String × Val) : Input :=
  if d.any (fun p => p.1 == kv.1) then
    d.map (fun p => if p.1 == kv.1 then (p.1, kv.2) else p)
  else d ++ [kv]

/-- Python's `{**d, **entries}` merge: entries are inserted left to right,
later keys overriding earlier values in place. -/
def dictExtend (d : Input) (entries : Input) : Input :=
  entries.foldl updateAssoc d

/-- Lines 204-209 of `_exec` together with `_persist_outputs` (lines
291-294): the records written to `output.jsonl` — one Python dict
`(LINE_NUMBER_KEY: r.run_info.index, **r.output)` per line whose status is
`Completed`, in the order of the (index-sorted) line results.
`dump_list_to_jsonl` is modelled from the spec as writing exactly one
line-delimited JSON record per list element, so the file's records are the
list itself. -/
def persistedOutputs (lrs : List LineResult) : List Input :=
  (lrs.filter (fun r => r.run_info.status == Status.Completed)).map
    (fun r => dictExtend [(LINE_NUMBER_KEY, Val.VInt (r.run_info.index : Int))] r.output)

/-- `BatchEngine._exec` (lines 182-211), for the generic (non-Python-proxy)
path taken at line 199: apply input defaults, run all lines through
`_exec_batch`, apply the line-failure policy, run the aggregation step,
build the persisted output records, and assemble the final `BatchResult`.
`applyDefaults` models `apply_default_value_for_input`; `startT`/`endT`
model the run's wall-clock timestamps.  The result pairs the returned
`BatchResult` with the records persisted to `output.jsonl`. -/
def exec (flow : PFlow) (applyDefaults : Input → Input)
    (f : Input → Nat → LineResult)
    (exec_aggr : Columns → Columns → Except PyExc AggregationResult)
    (batch_inputs : List Input) (order : List Nat)
    (raise_on_line_failure : Bool) (startT endT : Nat) :
    Except PyExc (BatchResult × List Input) :=
  let inputs := batch_inputs.map applyDefaults
  let line_results := exec_batch f inputs order
  match handle_line_failures (line_results.map (fun r => r.run_info))
      raise_on_line_failure with
  | .error e => .error e
  | .ok _ =>
    match exec_aggregation flow exec_aggr inputs line_results with
    | .error e => .error e
    | .ok aggr =>
      .ok (BatchResult.create startT endT line_results aggr none,
        persistedOutputs line_results)

/-- What the cancellation supervisor `_exec_in_task` can observe at one of
its one-second polls: whether the `_exec` task has finished, whether
`cancel()` has set `_is_canceled`, the line results recorded so far
(`self._line_results`), the aggregation results recorded so far
(`self._aggr_results`), and the current wall-clock time. -/
structure PollState where
  taskDone : Bool
  isCanceled : Bool
  lineResults : List LineResult
  aggrResults : AggregationResult
  now : Nat
deriving Repr

/-- `BatchEngine._exec_in_task` (lines 163-180): starting at poll `k`, the
supervisor checks whether the `_exec` task is done; if not it sleeps one
second (moving to poll `k+1`) and, if `_is_canceled` is now set, cancels
the task and immediately returns a `BatchResult` built from the line and
aggregation results recorded so far, with status `Canceled`; otherwise it
loops.  `fuel` bounds how many polls we observe; `none` means the loop was
still running after `fuel` polls. -/
def exec_in_task (trace : Nat → PollState) (taskResult : BatchResult)
    (startT : Nat) : Nat → Nat → Option BatchResult
  | _, 0 => none
  | k, fuel + 1 =>
    if (trace k).taskDone then some taskResult
    else if (trace (k + 1)).isCanceled then
      some (BatchResult.create startT (trace (k + 1)).now
        (trace (k + 1)).lineResults (trace (k + 1)).aggrResults
        (some Status.Canceled))
    else exec_in_task trace taskResult startT (k + 1) fuel

/-- The task created for position `i` runs line `i`'s inputs. -/
theorem createdLineTasks_get (f : Input → Nat → LineResult)
    (batch_inputs : List Input) (i : Nat) :
    (createdLineTasks f batch_inputs).get? i =
      (batch_inputs.get? i).map (fun inp => f inp i) := by
  unfold createdLineTasks
  rw [List.get?_map, List.get?_enum]
  cases batch_inputs.get? i <;> rfl

/-- The length of the created task list is the batch size. -/
theorem createdLineTasks_length (f : Input → Nat → LineResult)
    (batch_inputs : List Input) :
    (createdLineTasks f batch_inputs).length = batch_inputs.length := by
  simp [createdLineTasks]

/-- C1.  The claim says at most `DEFAULT_CONCURRENCY = 16` line executions
are ever in flight, each admitted under the concurrency gate strictly
before running.  The code does the opposite: `_exec_batch` (lines 223-226)
creates — and thereby starts — one task per line for the whole batch
before its completion loop runs, and the `asyncio.Semaphore(16)` of line
230 is constructed afresh each iteration and acquired only by the single
supervisor coroutine, never by a line task, so nothing gates line
admission.  With a batch of 17 lines, all 17 line executions are in
flight before the first await, exceeding the advertised ceiling of 16. -/
theorem C1_concurrency_ceiling_not_enforced :
    DEFAULT_CONCURRENCY = 16
    ∧ (createdLineTasks
        (fun _ i => ⟨⟨i, Status.Completed, none⟩, [], []⟩)
        (List.replicate 17 [])).length = 17
    ∧ DEFAULT_CONCURRENCY < 17 := by
  refine ⟨rfl, ?_, by decide⟩
  rw [createdLineTasks_length]
  rfl

/-- C2 (amended).  For every batch of N inputs, whatever the completion
order of the line tasks, a successful `_exec` returns exactly N
LineResults, sorted ascending by line index — indeed equal to the
canonical index-ordered task list.  For N = 0 with no aggregation nodes
declared, the run returns an empty result list and the empty aggregation
result untouched by any executor call.  (The unamended claim's assertion
that N = 0 never triggers aggregation fails when the flow declares
aggregation nodes; see the counterexample.) -/
theorem C2_results_count_and_order (flow : PFlow) (applyDefaults : Input → Input)
    (f : Input → Nat → LineResult)
    (exec_aggr : Columns → Columns → Except PyExc AggregationResult)
    (batch_inputs : List Input) (order : List Nat)
    (raise_on_line_failure : Bool) (startT endT : Nat)
    (hexec : ∀ inp i, (f inp i).run_info.index = i)
    (horder : order.Perm (List.range batch_inputs.length)) :
    (∀ br file,
        exec flow applyDefaults f exec_aggr batch_inputs order
          raise_on_line_failure startT endT = .ok (br, file) →
        br.lineResults = createdLineTasks f (batch_inputs.map applyDefaults)
        ∧ br.lineResults.length = batch_inputs.length
        ∧ br.lineResults.Pairwise leIdx)
    ∧ (batch_inputs = [] →
        (flow.nodes.filter (fun n => n.aggregation)).isEmpty = true →
        exec flow applyDefaults f exec_aggr batch_inputs order
          raise_on_line_failure startT endT =
          .ok (BatchResult.create startT endT [] emptyAggregationResult none, [])) := by
  have hlenmap : (batch_inputs.map applyDefaults).length = batch_inputs.length :=
    List.length_map _ _
  have hbatch : exec_batch f (batch_inputs.map applyDefaults) order =
      createdLineTasks f (batch_inputs.map applyDefaults) := by
    apply exec_batch_eq_canonical f _ order hexec
    rw [hlenmap]; exact horder
  constructor
  · intro br file hok
    have hline : br.lineResults = createdLineTasks f (batch_inputs.map applyDefaults) := by
      simp only [exec] at hok
      rw [hbatch] at hok
      rcases hh : handle_line_failures
          ((createdLineTasks f (batch_inputs.map applyDefaults)).map
            (fun r => r.run_info)) raise_on_line_failure with e | u
      · rw [hh] at hok; cases hok
      · rw [hh] at hok
        rcases ha : exec_aggregation flow exec_aggr (batch_inputs.map applyDefaults)
            (createdLineTasks f (batch_inputs.map applyDefaults)) with e | aggr
        · rw [ha] at hok; cases hok
        · rw [ha] at hok
          cases hok
          rfl
    refine ⟨hline, ?_, ?_⟩
    · rw [hline, createdLineTasks_length, hlenmap]
    · rw [hline]
      exact (createdLineTasks_pairwise f _ hexec).imp (fun h => Nat.le_of_lt h)
  · intro hnil hag
    subst hnil
    have hord : order = [] := List.Perm.eq_nil (by simpa using horder)
    subst hord
    simp [exec, exec_batch, createdLineTasks, handle_line_failures,
      exec_aggregation, hag, persistedOutputs, List.filterMap_nil]

/-- C2 counterexample.  With N = 0 input lines but a flow that declares an
aggregation node, `_exec` still invokes the executor's aggregation entry
point: instantiating it with a probe that returns a marked
`AggregationResult` shows the marker in the final `BatchResult`, which
would have been the empty aggregation result had the executor not been
consulted.  The claim's "for N = 0 it returns ... no aggregation" is
therefore false. -/
theorem C2_counterexample_aggregation_runs_for_empty_batch :
    exec ⟨[], [⟨"agg", true⟩], []⟩ id
        (fun _ i => ⟨⟨i, Status.Completed, none⟩, [], []⟩)
        (fun _ _ => .ok ⟨[("probe", Val.VInt 1)], [], []⟩)
        [] [] false 0 0 =
      .ok (BatchResult.create 0 0 [] ⟨[("probe", Val.VInt 1)], [], []⟩ none, [])
    ∧ (⟨[("probe", Val.VInt 1)], [], []⟩ : AggregationResult) ≠ emptyAggregationResult := by
  constructor
  · rfl
  · decide

/-- C9.  If the flow declares no aggregation nodes, `_exec_aggregation`
returns the empty `AggregationResult` at once (lines 251-253) and the
executor's aggregation entry point is never invoked — the result does not
depend on `exec_aggr` at all. -/
theorem C9_no_aggregation_nodes_skips_executor (flow : PFlow)
    (exec_aggr : Columns → Columns → Except PyExc AggregationResult)
    (batch_inputs : List Input) (lrs : List LineResult)
    (hag : (flow.nodes.filter (fun n => n.aggregation)).isEmpty = true) :
    exec_aggregation flow exec_aggr batch_inputs lrs = .ok emptyAggregationResult := by
  simp [exec_aggregation, hag]

/-- Witness for C9 at a concrete flow without aggregation nodes; the
executor hook is instantiated with one that always raises, so the `ok`
result also demonstrates the executor was not consulted. -/
theorem C9_witness :
    ((⟨[("x", ValueType.vtString)], [⟨"n", false⟩], []⟩ : PFlow).nodes.filter
        (fun n => n.aggregation)).isEmpty = true
    ∧ exec_aggregation ⟨[("x", ValueType.vtString)], [⟨"n", false⟩], []⟩
        (fun _ _ => .error (.other "Boom" "must not be called"))
        [] [] = .ok emptyAggregationResult :=
  ⟨by decide,
   C9_no_aggregation_nodes_skips_executor _ _ [] [] (by decide)⟩

/-- C6.  `BatchEngine.run` calls `self._executor_proxy.destroy()` — the
executor teardown — in a `finally` block, so it runs exactly once on every
exit path of `run()`: normal completion (including a Canceled
`BatchResult`), a re-raised `PromptflowException`, and a wrapped
unexpected error alike. -/
theorem C6_destroy_called_exactly_once (bodyOutcome : Except PyExc BatchResult) :
    (run bodyOutcome).2 = 1 := by
  cases bodyOutcome <;> rfl

/-- C7.  Error classification on escalation: a `PromptflowException` is
propagated to the caller unchanged (both by `run`'s except-clause and by
`_exec_aggregation`'s); any other exception is wrapped into an
"unexpected" error whose message carries the original exception's class
name and message, with the original preserved as the cause; and the
top-level `run` either returns a `BatchResult` or raises exactly one
escalated error — always a `PromptflowException`. -/
theorem C7_error_classification (flow : PFlow)
    (batch_inputs : List Input) (lrs : List LineResult)
    (hag : (flow.nodes.filter (fun n => n.aggregation)).isEmpty = false) :
    (∀ m c, run (.error (.pf m c)) = (.error (.pf m c), 1))
    ∧ (∀ cls msg, run (.error (.other cls msg)) =
        (.error (.pf ("Unexpected error occurred while executing the batch run. Error: ("
          ++ cls ++ ") " ++ msg ++ ".") (some (cls, msg))), 1))
    ∧ (∀ e, exec_aggregation flow (fun _ _ => .error e) batch_inputs lrs =
        .error (wrapAggregationError e))
    ∧ (∀ m c, wrapAggregationError (.pf m c) = .pf m c)
    ∧ (∀ cls msg, wrapAggregationError (.other cls msg) =
        .pf ("Unexpected error occurred while executing the aggregated nodes. "
          ++ "Please fix or contact support for assistance. The error details: ("
          ++ cls ++ ") " ++ msg ++ ".") (some (cls, msg)))
    ∧ (∀ bodyOutcome, (∃ br, (run bodyOutcome).1 = .ok br)
        ∨ (∃ m c, (run bodyOutcome).1 = .error (.pf m c))) := by
  refine ⟨fun m c => rfl, fun cls msg => rfl, ?_, fun m c => rfl, fun cls msg => rfl, ?_⟩
  · intro e
    simp [exec_aggregation, hag, Except.mapError]
  · intro bodyOutcome
    match bodyOutcome with
    | .ok br => exact Or.inl ⟨br, rfl⟩
    | .error (.pf m c) => exact Or.inr ⟨m, c, rfl⟩
    | .error (.other cls msg) => exact Or.inr ⟨_, _, rfl⟩

/-- Witness for C7 at a concrete flow with one aggregation node. -/
theorem C7_witness :
    (((⟨[], [⟨"agg", true⟩], []⟩ : PFlow).nodes.filter
        (fun n => n.aggregation)).isEmpty = false)
    ∧ ((∀ m c, run (.error (.pf m c)) = (.error (.pf m c), 1))
      ∧ (∀ cls msg, run (.error (.other cls msg)) =
          (.error (.pf ("Unexpected error occurred while executing the batch run. Error: ("
            ++ cls ++ ") " ++ msg ++ ".") (some (cls, msg))), 1))
      ∧ (∀ e, exec_aggregation ⟨[], [⟨"agg", true⟩], []⟩ (fun _ _ => .error e) [] [] =
          .error (wrapAggregationError e))
      ∧ (∀ m c, wrapAggregationError (.pf m c) = .pf m c)
      ∧ (∀ cls msg, wrapAggregationError (.other cls msg) =
          .pf ("Unexpected error occurred while executing the aggregated nodes. "
            ++ "Please fix or contact support for assistance. The error details: ("
            ++ cls ++ ") " ++ msg ++ ".") (some (cls, msg)))
      ∧ (∀ bodyOutcome, (∃ br, (run bodyOutcome).1 = .ok br)
          ∨ (∃ m c, (run bodyOutcome).1 = .error (.pf m c)))) :=
  ⟨by decide, C7_error_classification ⟨[], [⟨"agg", true⟩], []⟩ [] [] (by decide)⟩

/-- Stepwise growth of the recorded line results implies growth between any
two polls. -/
theorem sublist_of_le (g : Nat → List LineResult)
    (h : ∀ k, (g k).Sublist (g (k + 1))) :
    ∀ m n, m ≤ n → (g m).Sublist (g n) := by
  intro m n hmn
  induction n, hmn using Nat.le_induction with
  | base => exact List.Sublist.refl _
  | succ n _ ih => exact ih.trans (h n)

/-- The supervisor loop, started at poll `k`, exits at the first poll at
which it observes the cancel flag, returning the partial `BatchResult`
built from that poll's recorded state. -/
theorem exec_in_task_cancels (trace : Nat → PollState) (taskResult : BatchResult)
    (startT : Nat) :
    ∀ c k fuel, (∀ j, (trace j).taskDone = false) →
      (trace (k + c + 1)).isCanceled = true →
      (∀ j, k + 1 ≤ j → j ≤ k + c → (trace j).isCanceled = false) →
      c + 1 ≤ fuel →
      exec_in_task trace taskResult startT k fuel =
        some (BatchResult.create startT (trace (k + c + 1)).now
          (trace (k + c + 1)).lineResults (trace (k + c + 1)).aggrResults
          (some Status.Canceled)) := by
  intro c
  induction c with
  | zero =>
    intro k fuel hdone hc _ hfuel
    match fuel, hfuel with
    | fuel + 1, _ =>
      show exec_in_task trace taskResult startT k (fuel + 1) = _
      rw [exec_in_task, hdone k]
      simp only [Bool.false_eq_true, if_false]
      rw [if_pos (by simpa using hc)]
  | succ c ih =>
    intro k fuel hdone hc hfirst hfuel
    match fuel, hfuel with
    | fuel + 1, hfuel =>
      rw [exec_in_task, hdone k]
      simp only [Bool.false_eq_true, if_false]
      rw [if_neg (by
        rw [hfirst (k + 1) (Nat.le_refl _) (by omega)]
        exact Bool.false_ne_true)]
      have := ih (k + 1) fuel hdone (by
          have : k + 1 + c + 1 = k + (c + 1) + 1 := by omega
          rw [this]; exact hc)
        (fun j h1 h2 => hfirst j (by omega) (by omega))
        (by omega)
      rw [this]
      have harg : k + 1 + c + 1 = k + (c + 1) + 1 := by omega
      rw [harg]

/-- C4.  If `cancel()` sets `_is_canceled` while the `_exec` task is still
running, the supervisor `_exec_in_task` observes the flag at its next
one-second poll, stops waiting for the task, and returns a `BatchResult`
with status `Canceled` built from the line results recorded so far: these
contain every line result recorded at any poll up to the signal (growth of
`_line_results` is append-only), number at most the batch size N, and the
end time is at least the start time.  (The real-time "about one second"
latency of the polling loop is represented by one poll step.) -/
theorem C4_cancellation_partial_result (trace : Nat → PollState)
    (taskResult : BatchResult) (startT : Nat) (c N : Nat)
    (hdone : ∀ k, (trace k).taskDone = false)
    (hc : (trace (c + 1)).isCanceled = true)
    (hfirst : ∀ j, j ≤ c → (trace j).isCanceled = false)
    (hN : ∀ k, (trace k).lineResults.length ≤ N)
    (hmono : ∀ k, (trace k).lineResults.Sublist (trace (k + 1)).lineResults)
    (hnow : ∀ k, startT ≤ (trace k).now) :
    ∀ fuel, c + 1 ≤ fuel →
      exec_in_task trace taskResult startT 0 fuel =
        some (BatchResult.create startT (trace (c + 1)).now
          (trace (c + 1)).lineResults (trace (c + 1)).aggrResults
          (some Status.Canceled))
      ∧ (BatchResult.create startT (trace (c + 1)).now
          (trace (c + 1)).lineResults (trace (c + 1)).aggrResults
          (some Status.Canceled)).status = Status.Canceled
      ∧ (trace (c + 1)).lineResults.length ≤ N
      ∧ (∀ m, m ≤ c + 1 → (trace m).lineResults.Sublist (trace (c + 1)).lineResults)
      ∧ startT ≤ (trace (c + 1)).now := by
  intro fuel hfuel
  refine ⟨?_, rfl, hN _, ?_, hnow _⟩
  · have := exec_in_task_cancels trace taskResult startT c 0 fuel hdone
      (by simpa using hc)
      (fun j h1 h2 => hfirst j (by omega)) hfuel
    simpa using this
  · intro m hm
    exact sublist_of_le (fun k => (trace k).lineResults) hmono m (c + 1) hm

/-- Witness for C4: a concrete trace whose cancel flag is first observed at
poll 2, with the task never finishing and one line result recorded. -/
theorem C4_witness :
    (∀ k, ((fun k => (⟨false, decide (2 ≤ k),
        [⟨⟨0, Status.Completed, none⟩, [], []⟩], emptyAggregationResult,
        5 + k⟩ : PollState)) k).taskDone = false)
    ∧ (∀ fuel, 1 + 1 ≤ fuel →
        exec_in_task (fun k => ⟨false, decide (2 ≤ k),
            [⟨⟨0, Status.Completed, none⟩, [], []⟩], emptyAggregationResult,
            5 + k⟩)
          (BatchResult.create 5 9 [] emptyAggregationResult none) 5 0 fuel =
          some (BatchResult.create 5 (5 + 2)
            [⟨⟨0, Status.Completed, none⟩, [], []⟩] emptyAggregationResult
            (some Status.Canceled))
        ∧ (BatchResult.create 5 (5 + 2)
            [⟨⟨0, Status.Completed, none⟩, [], []⟩] emptyAggregationResult
            (some Status.Canceled)).status = Status.Canceled
        ∧ [(⟨⟨0, Status.Completed, none⟩, [], []⟩ : LineResult)].length ≤ 3
        ∧ (∀ m, m ≤ 1 + 1 →
            [(⟨⟨0, Status.Completed, none⟩, [], []⟩ : LineResult)].Sublist
              [⟨⟨0, Status.Completed, none⟩, [], []⟩])
        ∧ 5 ≤ 5 + 2) :=
  ⟨fun _ => rfl,
   C4_cancellation_partial_result
     (fun k => ⟨false, decide (2 ≤ k),
       [⟨⟨0, Status.Completed, none⟩, [], []⟩], emptyAggregationResult, 5 + k⟩)
     (BatchResult.create 5 9 [] emptyAggregationResult none) 5 1 3
     (fun _ => rfl) (by decide) (by decide)
     (fun _ => by
       show [(⟨⟨0, Status.Completed, none⟩, [], []⟩ : LineResult)].length ≤ 3
       decide)
     (fun _ => List.Sublist.refl _)
     (fun k => Nat.le_add_right 5 k)⟩

/-- C5.  Line-failure policy of `_exec` (line 200, `handle_line_failures`):
with `raise_on_line_failure = False`, a batch in which line `i` failed
still yields a successful run whose result list has exactly N entries with
entry `i` being the failed line's result; with `raise_on_line_failure =
True`, once all lines have finished the run raises a single aggregated
error built from exactly the failing lines' run infos — among them line
`i` — whose message summarizes their indices and causes. -/
theorem C5_raise_on_line_failure (flow : PFlow) (applyDefaults : Input → Input)
    (f : Input → Nat → LineResult)
    (exec_aggr : Columns → Columns → Except PyExc AggregationResult)
    (batch_inputs : List Input) (order : List Nat) (startT endT : Nat) (i : Nat)
    (hexec : ∀ inp j, (f inp j).run_info.index = j)
    (horder : order.Perm (List.range batch_inputs.length))
    (hfail : ∃ inp, (batch_inputs.map applyDefaults).get? i = some inp
      ∧ (f inp i).run_info.status = Status.Failed) :
    (∀ aggr,
        exec_aggregation flow exec_aggr (batch_inputs.map applyDefaults)
          (createdLineTasks f (batch_inputs.map applyDefaults)) = .ok aggr →
        exec flow applyDefaults f exec_aggr batch_inputs order false startT endT =
          .ok (BatchResult.create startT endT
              (createdLineTasks f (batch_inputs.map applyDefaults)) aggr none,
            persistedOutputs (createdLineTasks f (batch_inputs.map applyDefaults)))
        ∧ (createdLineTasks f (batch_inputs.map applyDefaults)).length =
            batch_inputs.length
        ∧ (∀ inp, (batch_inputs.map applyDefaults).get? i = some inp →
            (createdLineTasks f (batch_inputs.map applyDefaults)).get? i =
              some (f inp i)))
    ∧ (exec flow applyDefaults f exec_aggr batch_inputs order true startT endT =
        .error (.pf (lineFailureMessage
          (((createdLineTasks f (batch_inputs.map applyDefaults)).map
              (fun r => r.run_info)).filter
            (fun r => r.status == Status.Failed))) none)
      ∧ (∃ inp, (batch_inputs.map applyDefaults).get? i = some inp
          ∧ (f inp i).run_info ∈
              (((createdLineTasks f (batch_inputs.map applyDefaults)).map
                  (fun r => r.run_info)).filter
                (fun r => r.status == Status.Failed))
          ∧ (f inp i).run_info.index = i
          ∧ (f inp i).run_info.status = Status.Failed)) := by
  have hbatch : exec_batch f (batch_inputs.map applyDefaults) order =
      createdLineTasks f (batch_inputs.map applyDefaults) := by
    apply exec_batch_eq_canonical f _ order hexec
    rw [List.length_map]
    exact horder
  obtain ⟨inp0, hinp0, hst0⟩ := hfail
  have htask : (createdLineTasks f (batch_inputs.map applyDefaults)).get? i =
      some (f inp0 i) := by
    rw [createdLineTasks_get, hinp0]
    rfl
  have hmem : (f inp0 i).run_info ∈
      (((createdLineTasks f (batch_inputs.map applyDefaults)).map
          (fun r => r.run_info)).filter (fun r => r.status == Status.Failed)) := by
    apply List.mem_filter.mpr
    refine ⟨List.mem_map_of_mem _ (List.get?_mem htask), by simp [hst0]⟩
  have hne : ((((createdLineTasks f (batch_inputs.map applyDefaults)).map
      (fun r => r.run_info)).filter
        (fun r => r.status == Status.Failed))).isEmpty = false := by
    rcases hcase : (((createdLineTasks f (batch_inputs.map applyDefaults)).map
        (fun r => r.run_info)).filter (fun r => r.status == Status.Failed)) with
      _ | ⟨a, t⟩
    · rw [hcase] at hmem
      cases hmem
    · rw [hcase]
      rfl
  constructor
  · intro aggr haggr
    refine ⟨?_, ?_, ?_⟩
    · simp only [exec]
      rw [hbatch]
      have hok : handle_line_failures
          ((createdLineTasks f (batch_inputs.map applyDefaults)).map
            (fun r => r.run_info)) false = .ok () := by
        simp [handle_line_failures]
      rw [hok, haggr]
    · rw [createdLineTasks_length, List.length_map]
    · intro inp hinp
      rw [hinp0] at hinp
      cases hinp
      exact htask
  · refine ⟨?_, ⟨inp0, hinp0, hmem, hexec inp0 i, hst0⟩⟩
    simp only [exec]
    rw [hbatch]
    have herr : handle_line_failures
        ((createdLineTasks f (batch_inputs.map applyDefaults)).map
          (fun r => r.run_info)) true =
        .error (.pf (lineFailureMessage
          (((createdLineTasks f (batch_inputs.map applyDefaults)).map
              (fun r => r.run_info)).filter
            (fun r => r.status == Status.Failed))) none) := by
      simp [handle_line_failures, hne]
    rw [herr]

/-- Witness for C5: a concrete two-line batch whose line 1 fails, with the
line tasks completing out of order and a flow without aggregation
nodes. -/
theorem C5_witness :
    ((([[("x", Val.VStr "a")], [("x", Val.VStr "b")]] : List Input).map id).get? 1 =
        some [("x", Val.VStr "b")]
      ∧ ((fun (_ : Input) (j : Nat) =>
            (⟨⟨j, if j == 1 then Status.Failed else Status.Completed,
              some "boom"⟩, [], []⟩ : LineResult)) [("x", Val.VStr "b")]
          1).run_info.status = Status.Failed)
    ∧ ((∀ aggr,
        exec_aggregation ⟨[("x", ValueType.vtString)], [⟨"n", false⟩], []⟩
          (fun _ _ => .ok emptyAggregationResult)
          (([[("x", Val.VStr "a")], [("x", Val.VStr "b")]] : List Input).map id)
          (createdLineTasks
            (fun (_ : Input) (j : Nat) =>
              (⟨⟨j, if j == 1 then Status.Failed else Status.Completed,
                some "boom"⟩, [], []⟩ : LineResult))
            (([[("x", Val.VStr "a")], [("x", Val.VStr "b")]] : List Input).map id)) =
          .ok aggr →
        exec ⟨[("x", ValueType.vtString)], [⟨"n", false⟩], []⟩ id
            (fun (_ : Input) (j : Nat) =>
              (⟨⟨j, if j == 1 then Status.Failed else Status.Completed,
                some "boom"⟩, [], []⟩ : LineResult))
            (fun _ _ => .ok emptyAggregationResult)
            [[("x", Val.VStr "a")], [("x", Val.VStr "b")]] [1, 0] false 3 7 =
          .ok (BatchResult.create 3 7
              (createdLineTasks
                (fun (_ : Input) (j : Nat) =>
                  (⟨⟨j, if j == 1 then Status.Failed else Status.Completed,
                    some "boom"⟩, [], []⟩ : LineResult))
                (([[("x", Val.VStr "a")], [("x", Val.VStr "b")]] : List Input).map id))
              aggr none,
            persistedOutputs
              (createdLineTasks
                (fun (_ : Input) (j : Nat) =>
                  (⟨⟨j, if j == 1 then Status.Failed else Status.Completed,
                    some "boom"⟩, [], []⟩ : LineResult))
                (([[("x", Val.VStr "a")], [("x", Val.VStr "b")]] : List Input).map id)))
        ∧ (createdLineTasks
            (fun (_ : Input) (j : Nat) =>
              (⟨⟨j, if j == 1 then Status.Failed else Status.Completed,
                some "boom"⟩, [], []⟩ : LineResult))
            (([[("x", Val.VStr "a")], [("x", Val.VStr "b")]] : List Input).map id)).length =
            ([[("x", Val.VStr "a")], [("x", Val.VStr "b")]] : List Input).length
        ∧ (∀ inp,
            (([[("x", Val.VStr "a")], [("x", Val.VStr "b")]] : List Input).map id).get? 1 =
              some inp →
            (createdLineTasks
              (fun (_ : Input) (j : Nat) =>
                (⟨⟨j, if j == 1 then Status.Failed else Status.Completed,
                  some "boom"⟩, [], []⟩ : LineResult))
              (([[("x", Val.VStr "a")], [("x", Val.VStr "b")]] : List Input).map id)).get? 1 =
              some ((fun (_ : Input) (j : Nat) =>
                (⟨⟨j, if j == 1 then Status.Failed else Status.Completed,
                  some "boom"⟩, [], []⟩ : LineResult)) inp 1)))
      ∧ (exec ⟨[("x", ValueType.vtString)], [⟨"n", false⟩], []⟩ id
            (fun (_ : Input) (j : Nat) =>
              (⟨⟨j, if j == 1 then Status.Failed else Status.Completed,
                some "boom"⟩, [], []⟩ : LineResult))
            (fun _ _ => .ok emptyAggregationResult)
            [[("x", Val.VStr "a")], [("x", Val.VStr "b")]] [1, 0] true 3 7 =
          .error (.pf (lineFailureMessage
            (((createdLineTasks
                (fun (_ : Input) (j : Nat) =>
                  (⟨⟨j, if j == 1 then Status.Failed else Status.Completed,
                    some "boom"⟩, [], []⟩ : LineResult))
                (([[("x", Val.VStr "a")], [("x", Val.VStr "b")]] : List Input).map id)).map
                (fun r => r.run_info)).filter
              (fun r => r.status == Status.Failed))) none)
        ∧ (∃ inp,
            (([[("x", Val.VStr "a")], [("x", Val.VStr "b")]] : List Input).map id).get? 1 =
              some inp
            ∧ ((fun (_ : Input) (j : Nat) =>
                (⟨⟨j, if j == 1 then Status.Failed else Status.Completed,
                  some "boom"⟩, [], []⟩ : LineResult)) inp 1).run_info ∈
                (((createdLineTasks
                    (fun (_ : Input) (j : Nat) =>
                      (⟨⟨j, if j == 1 then Status.Failed else Status.Completed,
                        some "boom"⟩, [], []⟩ : LineResult))
                    (([[("x", Val.VStr "a")], [("x", Val.VStr "b")]] : List Input).map id)).map
                    (fun r => r.run_info)).filter
                  (fun r => r.status == Status.Failed))
            ∧ ((fun (_ : Input) (j : Nat) =>
                (⟨⟨j, if j == 1 then Status.Failed else Status.Completed,
                  some "boom"⟩, [], []⟩ : LineResult)) inp 1).run_info.index = 1
            ∧ ((fun (_ : Input) (j : Nat) =>
                (⟨⟨j, if j == 1 then Status.Failed else Status.Completed,
                  some "boom"⟩, [], []⟩ : LineResult)) inp 1).run_info.status =
                Status.Failed))) :=
  ⟨⟨rfl, rfl⟩,
   C5_raise_on_line_failure ⟨[("x", ValueType.vtString)], [⟨"n", false⟩], []⟩ id
     (fun (_ : Input) (j : Nat) =>
       (⟨⟨j, if j == 1 then Status.Failed else Status.Completed,
         some "boom"⟩, [], []⟩ : LineResult))
     (fun _ _ => .ok emptyAggregationResult)
     [[("x", Val.VStr "a")], [("x", Val.VStr "b")]] [1, 0] 3 7 1
     (fun _ j => rfl) (by decide) ⟨[("x", Val.VStr "b")], rfl, rfl⟩⟩

/-- On a list where `g` never fails, `filterMap g` acts positionally. -/
theorem filterMap_get_of_isSome (l : List α) (g : α → Option β)
    (h : ∀ x ∈ l, (g x).isSome = true) :
    ∀ j, (l.filterMap g).get? j = (l.get? j).bind g := by
  induction l with
  | nil => intro j; cases j <;> rfl
  | cons a t ih =>
    intro j
    obtain ⟨b, hb⟩ := Option.isSome_iff_exists.mp (h a (List.mem_cons_self a t))
    cases j with
    | zero => simp [List.filterMap_cons, hb]
    | succ j =>
      simp only [List.filterMap_cons, hb, List.get?_cons_succ]
      exact ih (fun x hx => h x (List.mem_cons_of_mem a hx)) j

/-- On a list where `g` never fails, `filterMap g` keeps every element. -/
theorem length_filterMap_of_isSome (l : List α) (g : α → Option β)
    (h : ∀ x ∈ l, (g x).isSome = true) :
    (l.filterMap g).length = l.length := by
  induction l with
  | nil => rfl
  | cons a t ih =>
    obtain ⟨b, hb⟩ := Option.isSome_iff_exists.mp (h a (List.mem_cons_self a t))
    simp only [List.filterMap_cons, hb, List.length_cons]
    rw [ih (fun x hx => h x (List.mem_cons_of_mem a hx))]

/-- Looking an index up within the list's bounds succeeds. -/
theorem get_isSome_of_lt (l : List α) (i : Nat) (h : i < l.length) :
    (l.get? i).isSome = true := by
  cases hg : l.get? i with
  | none => exact absurd (List.get?_eq_none.mp hg) (Nat.not_le_of_lt h)
  | some a => rfl

/-- `find?` over a key-tagged map pulls out exactly the entry of the
requested key. -/
theorem find_map_key {β : Type} (keys : List String) (F : String → String × β)
    (k : String) (hF : ∀ x, (F x).1 = x) (hk : k ∈ keys) :
    (keys.map F).find? (fun p => p.1 == k) = some (F k) := by
  induction keys with
  | nil => cases hk
  | cons a t ih =>
    rw [List.map_cons, List.find?_cons]
    by_cases hak : a = k
    · subst hak
      simp [hF a]
    · have hbeq : ((F a).1 == k) = false := by
        rw [hF a]; exact beq_eq_false_iff_ne.mpr hak
      rw [hbeq]
      exact ih ((List.mem_cons.mp hk).resolve_left (fun h => hak h.symm))

/-- The value list stored in a column dict under key `k` (empty when the
key is absent). -/
def colVals (cols : Columns) (k : String) : List Val :=
  ((cols.find? (fun p => p.1 == k)).map Prod.snd).getD []

/-- Column access on a key-tagged map. -/
theorem colVals_of_map (keys : List String) (F : String → String × List Val)
    (k : String) (hF : ∀ x, (F x).1 = x) (hk : k ∈ keys) :
    colVals (keys.map F) k = (F k).2 := by
  unfold colVals
  rw [find_map_key keys F k hF hk]
  rfl

/-- Coercion of one value keyed by the flow's declared input type. -/
def inputTypeResolve (flow : PFlow) (k : String) (v : Val) : Val :=
  match (flow.inputs.find? (fun q => q.1 == k)).map Prod.snd with
  | some t => resolveValue t v
  | none => v

/-- `ensure_flow_inputs_type` rewritten entrywise. -/
theorem ensure_flow_inputs_type_eq (flow : PFlow) (inputs : Input) :
    ensure_flow_inputs_type flow inputs =
      inputs.map (fun p => (p.1, inputTypeResolve flow p.1 p.2)) := by
  unfold ensure_flow_inputs_type inputTypeResolve
  apply List.map_congr_left
  intro p _
  rcases h : (flow.inputs.find? (fun q => q.1 == p.1)).map Prod.snd with _ | t <;>
    simp [h]

/-- Dict lookup commutes with an entrywise, key-preserving rewrite of the
values. -/
theorem lookupVal_mapEntries (F : String → Val → Val) (inp : Input) (k : String) :
    lookupVal k (inp.map (fun p => (p.1, F p.1 p.2))) = (lookupVal k inp).map (F k) := by
  induction inp with
  | nil => rfl
  | cons p t ih =>
    unfold lookupVal
    rw [List.map_cons, List.find?_cons, List.find?_cons]
    cases hpk : (p.1 == k) with
    | true =>
      have : p.1 = k := eq_of_beq hpk
      subst this
      simp
    | false =>
      simp only [hpk]
      exact ih

/-- Dict lookup after coercion is the coerced dict lookup. -/
theorem lookupVal_ensure (flow : PFlow) (inp : Input) (k : String) :
    lookupVal k (ensure_flow_inputs_type flow inp) =
      (lookupVal k inp).map (inputTypeResolve flow k) := by
  rw [ensure_flow_inputs_type_eq]
  exact lookupVal_mapEntries (inputTypeResolve flow) inp k

/-- A position is selected by line 258 of `_exec_aggregation` exactly when
its line result has status `Completed`. -/
theorem mem_succeededPositions (lrs : List LineResult) (i : Nat) :
    i ∈ succeededPositions lrs ↔
      ∃ r, lrs.get? i = some r ∧ r.run_info.status = Status.Completed := by
  unfold succeededPositions
  simp only [List.mem_map, List.mem_filter]
  constructor
  · rintro ⟨⟨j, r⟩, ⟨hm, hs⟩, rfl⟩
    refine ⟨r, ?_, by simpa using hs⟩
    rw [List.get?_eq_getElem?]
    exact List.mk_mem_enum_iff_getElem?.mp hm
  · rintro ⟨r, hg, hs⟩
    refine ⟨(i, r), ⟨?_, by simpa using hs⟩, rfl⟩
    apply List.mk_mem_enum_iff_getElem?.mpr
    rw [← List.get?_eq_getElem?]
    exact hg

/-- The successful positions are listed in strictly ascending order. -/
theorem succeededPositions_pairwise (lrs : List LineResult) :
    (succeededPositions lrs).Pairwise (· < ·) := by
  unfold succeededPositions
  have h1 : (lrs.enum).Pairwise (fun a b => a.1 < b.1) := by
    have h := List.pairwise_lt_range lrs.length
    rw [← List.enum_map_fst lrs] at h
    exact List.pairwise_map.mp h
  exact List.pairwise_map.mpr
    (h1.filter (fun p => p.2.run_info.status == Status.Completed))

/-- A successful position indexes into the line results. -/
theorem succeededPositions_lt (lrs : List LineResult) (i : Nat)
    (hi : i ∈ succeededPositions lrs) : i < lrs.length := by
  obtain ⟨r, hg, _⟩ := (mem_succeededPositions lrs i).mp hi
  cases hlt : Nat.decLt i lrs.length with
  | isTrue h => exact h
  | isFalse h =>
    rw [List.get?_eq_none.mpr (Nat.le_of_not_lt h)] at hg
    cases hg

/-- C3 (amended).  When the flow declares aggregation nodes,
`_exec_aggregation` hands the executor's aggregation entry point exactly
the two column sets built from the successful lines: the selected
positions are precisely the lines with status `Completed`, in strictly
ascending order; every per-input-key column and every
per-aggregation-input-key column has one value per successful line; and
position `j` of every column is the corresponding field of the `j`-th
successful line — the input-side value being the line's input after the
declared-type coercion of `ensure_flow_inputs_type` (the unamended claim's
"original" values fail under coercion; see the counterexample).  Zipping
the columns positionally therefore reconstructs exactly the successful
lines' (coerced) per-line tuples, and no `Failed` or `Canceled` line
contributes. -/
theorem C3_aggregation_sees_only_successes (flow : PFlow)
    (exec_aggr : Columns → Columns → Except PyExc AggregationResult)
    (batch_inputs : List Input) (lrs : List LineResult)
    (hag : (flow.nodes.filter (fun n => n.aggregation)).isEmpty = false)
    (hlen : batch_inputs.length = lrs.length)
    (hkeys : ∀ inp ∈ batch_inputs, ∀ k ∈ flow.inputs.map Prod.fst,
      (lookupVal k inp).isSome = true)
    (haggr : ∀ r ∈ lrs, ∀ k ∈ flow.aggregationInputKeys,
      (lookupVal k r.aggregation_inputs).isSome = true) :
    exec_aggregation flow exec_aggr batch_inputs lrs =
      (exec_aggr (succeededInputsColumns flow batch_inputs lrs)
        (succeededAggregationColumns flow lrs)).mapError wrapAggregationError
    ∧ (succeededPositions lrs).Pairwise (· < ·)
    ∧ (∀ i, i ∈ succeededPositions lrs ↔
        ∃ r, lrs.get? i = some r ∧ r.run_info.status = Status.Completed)
    ∧ (∀ k, k ∈ flow.inputs.map Prod.fst →
        (colVals (succeededInputsColumns flow batch_inputs lrs) k).length =
          (succeededPositions lrs).length
        ∧ (∀ j i, (succeededPositions lrs).get? j = some i →
            (colVals (succeededInputsColumns flow batch_inputs lrs) k).get? j =
              (batch_inputs.get? i).bind
                (fun inp => lookupVal k (ensure_flow_inputs_type flow inp))))
    ∧ (∀ k, k ∈ flow.aggregationInputKeys →
        (colVals (succeededAggregationColumns flow lrs) k).length =
          (succeededPositions lrs).length
        ∧ (∀ j i, (succeededPositions lrs).get? j = some i →
            (colVals (succeededAggregationColumns flow lrs) k).get? j =
              (lrs.get? i).bind
                (fun r => lookupVal k r.aggregation_inputs))) := by
  have hsuccTotal : ∀ i ∈ succeededPositions lrs, (batch_inputs.get? i).isSome = true := by
    intro i hi
    exact get_isSome_of_lt _ i (hlen ▸ succeededPositions_lt lrs i hi)
  refine ⟨by simp [exec_aggregation, hag], succeededPositions_pairwise lrs,
    mem_succeededPositions lrs, ?_, ?_⟩
  · -- input-side columns
    intro k hk
    have hcol : colVals (succeededInputsColumns flow batch_inputs lrs) k =
        (((succeededPositions lrs).filterMap (fun i => batch_inputs.get? i)).map
          (fun inp => ensure_flow_inputs_type flow inp)).filterMap
          (fun v => lookupVal k v) := by
      unfold succeededInputsColumns transpose
      exact colVals_of_map _ _ k (fun _ => rfl) hk
    have hrowsTotal : ∀ x ∈ (((succeededPositions lrs).filterMap
        (fun i => batch_inputs.get? i)).map
          (fun inp => ensure_flow_inputs_type flow inp)),
        (lookupVal k x).isSome = true := by
      intro x hx
      obtain ⟨inp, hinp, rfl⟩ := List.mem_map.mp hx
      obtain ⟨i, _, hget⟩ := List.mem_filterMap.mp hinp
      rw [lookupVal_ensure]
      have hin := hkeys inp (List.get?_mem hget) k hk
      cases hv : lookupVal k inp with
      | none => rw [hv] at hin; cases hin
      | some v => rfl
    constructor
    · rw [hcol, length_filterMap_of_isSome _ _ hrowsTotal, List.length_map,
        length_filterMap_of_isSome _ _ hsuccTotal]
    · intro j i hj
      rw [hcol, filterMap_get_of_isSome _ _ hrowsTotal, List.get?_map,
        filterMap_get_of_isSome _ _ hsuccTotal, hj]
      show ((batch_inputs.get? i).map (fun inp => ensure_flow_inputs_type flow inp)).bind
          (fun v => lookupVal k v) = _
      cases batch_inputs.get? i <;> rfl
  · -- aggregation-side columns
    intro k hk
    have hallTotal : ∀ x ∈ (lrs.map (fun r => r.aggregation_inputs)),
        (lookupVal k x).isSome = true := by
      intro x hx
      obtain ⟨r, hr, rfl⟩ := List.mem_map.mp hx
      exact haggr r hr k hk
    have halllen : ((lrs.map (fun r => r.aggregation_inputs)).filterMap
        (fun v => lookupVal k v)).length = lrs.length := by
      rw [length_filterMap_of_isSome _ _ hallTotal, List.length_map]
    have hcol : colVals (succeededAggregationColumns flow lrs) k =
        (succeededPositions lrs).filterMap
          (fun i => ((lrs.map (fun r => r.aggregation_inputs)).filterMap
            (fun v => lookupVal k v)).get? i) := by
      unfold succeededAggregationColumns collect_lines transpose
      rw [List.map_map]
      exact colVals_of_map _ _ k (fun _ => rfl) hk
    have hgetTotal : ∀ i ∈ succeededPositions lrs,
        (((lrs.map (fun r => r.aggregation_inputs)).filterMap
          (fun v => lookupVal k v)).get? i).isSome = true := by
      intro i hi
      exact get_isSome_of_lt _ i (halllen ▸ succeededPositions_lt lrs i hi)
    constructor
    · rw [hcol, length_filterMap_of_isSome _ _ hgetTotal]
    · intro j i hj
      rw [hcol, filterMap_get_of_isSome _ _ hgetTotal, hj]
      show (((lrs.map (fun r => r.aggregation_inputs)).filterMap
        (fun v => lookupVal k v)).get? i) = _
      rw [filterMap_get_of_isSome _ _ hallTotal, List.get?_map]
      cases lrs.get? i <;> rfl

/-- Witness for C3: a three-line batch whose middle line failed; the
executor observes the two successful lines only, in ascending order. -/
theorem C3_witness :
    (((⟨[("x", ValueType.vtString)], [⟨"agg", true⟩], ["line"]⟩ : PFlow).nodes.filter
        (fun n => n.aggregation)).isEmpty = false
      ∧ ([[("x", Val.VStr "a")], [("x", Val.VStr "b")],
          [("x", Val.VStr "c")]] : List Input).length =
        ([⟨⟨0, Status.Completed, none⟩, [], [("line", Val.VInt 10)]⟩,
          ⟨⟨1, Status.Failed, some "e"⟩, [], [("line", Val.VInt 20)]⟩,
          ⟨⟨2, Status.Completed, none⟩, [], [("line", Val.VInt 30)]⟩] :
            List LineResult).length)
    ∧ exec_aggregation ⟨[("x", ValueType.vtString)], [⟨"agg", true⟩], ["line"]⟩
        (fun _ _ => Except.ok emptyAggregationResult)
        [[("x", Val.VStr "a")], [("x", Val.VStr "b")], [("x", Val.VStr "c")]]
        [⟨⟨0, Status.Completed, none⟩, [], [("line", Val.VInt 10)]⟩,
         ⟨⟨1, Status.Failed, some "e"⟩, [], [("line", Val.VInt 20)]⟩,
         ⟨⟨2, Status.Completed, none⟩, [], [("line", Val.VInt 30)]⟩] =
        Except.ok emptyAggregationResult
    ∧ (succeededPositions
        [⟨⟨0, Status.Completed, none⟩, [], [("line", Val.VInt 10)]⟩,
         ⟨⟨1, Status.Failed, some "e"⟩, [], [("line", Val.VInt 20)]⟩,
         ⟨⟨2, Status.Completed, none⟩, [], [("line", Val.VInt 30)]⟩]).Pairwise (· < ·) :=
  ⟨⟨by decide, by decide⟩,
   (C3_aggregation_sees_only_successes
     ⟨[("x", ValueType.vtString)], [⟨"agg", true⟩], ["line"]⟩
     (fun _ _ => Except.ok emptyAggregationResult)
     [[("x", Val.VStr "a")], [("x", Val.VStr "b")], [("x", Val.VStr "c")]]
     [⟨⟨0, Status.Completed, none⟩, [], [("line", Val.VInt 10)]⟩,
      ⟨⟨1, Status.Failed, some "e"⟩, [], [("line", Val.VInt 20)]⟩,
      ⟨⟨2, Status.Completed, none⟩, [], [("line", Val.VInt 30)]⟩]
     (by decide) (by decide) (by decide) (by decide)).1,
   (C3_aggregation_sees_only_successes
     ⟨[("x", ValueType.vtString)], [⟨"agg", true⟩], ["line"]⟩
     (fun _ _ => Except.ok emptyAggregationResult)
     [[("x", Val.VStr "a")], [("x", Val.VStr "b")], [("x", Val.VStr "c")]]
     [⟨⟨0, Status.Completed, none⟩, [], [("line", Val.VInt 10)]⟩,
      ⟨⟨1, Status.Failed, some "e"⟩, [], [("line", Val.VInt 20)]⟩,
      ⟨⟨2, Status.Completed, none⟩, [], [("line", Val.VInt 30)]⟩]
     (by decide) (by decide) (by decide) (by decide)).2.1⟩

/-- C3 counterexample.  The per-input-key columns do not contain the
successful lines' original values: `ensure_flow_inputs_type` coerces them
to the declared input types first.  A completed line whose input "x" is
the string "3" under a flow declaring "x" as an int reaches the
aggregation executor as the integer 3 — observed here by an executor
probe that echoes the first element of each input column. -/
theorem C3_counterexample_inputs_are_coerced :
    exec_aggregation ⟨[("x", ValueType.vtInt)], [⟨"agg", true⟩], []⟩
        (fun I _ =>
          Except.ok ⟨I.filterMap (fun p => (p.2.head?).map (fun v => (p.1, v))), [], []⟩)
        [[("x", Val.VStr "3")]]
        [⟨⟨0, Status.Completed, none⟩, [], []⟩] =
      Except.ok ⟨[("x", Val.VInt 3)], [], []⟩
    ∧ lookupVal "x" [("x", Val.VStr "3")] = some (Val.VStr "3")
    ∧ Val.VInt 3 ≠ Val.VStr "3" := by
  refine ⟨by decide, rfl, by decide⟩

/-- When the inserted entries' keys are fresh and pairwise distinct, a
Python dict-literal merge is plain concatenation. -/
theorem dictExtend_append (entries : Input) :
    ∀ d : Input, (∀ e ∈ entries, ∀ p ∈ d, p.1 ≠ e.1) →
    (entries.map Prod.fst).Nodup →
    dictExtend d entries = d ++ entries := by
  induction entries with
  | nil =>
    intro d _ _
    simp [dictExtend]
  | cons e rest ih =>
    intro d hd hn
    have hany : (d.any (fun p => p.1 == e.1)) = false := by
      apply List.any_eq_false.mpr
      intro p hp hbeq
      exact hd e (List.mem_cons_self e rest) p hp (eq_of_beq hbeq)
    have hupd : updateAssoc d e = d ++ [e] := by
      simp [updateAssoc, hany]
    obtain ⟨hnotmem, hntail⟩ := List.nodup_cons.mp hn
    show dictExtend (updateAssoc d e) rest = d ++ e :: rest
    rw [hupd, ih (d ++ [e]) ?_ hntail]
    · simp
    · intro x hx p hp
      rcases List.mem_append.mp hp with hpd | hpe
      · exact hd x (List.mem_cons_of_mem _ hx) p hpd
      · have hpe' : p = e := by simpa using hpe
        subst hpe'
        intro heq
        exact hnotmem (heq ▸ List.mem_map_of_mem Prod.fst hx)

/-- A dict with no entry under `k` has only keys different from `k`. -/
theorem keys_ne_of_lookup_none (d : Input) (k : String)
    (h : lookupVal k d = none) : ∀ e ∈ d, e.1 ≠ k := by
  intro e he
  have hfind : d.find? (fun p => p.1 == k) = none := by
    cases hf : d.find? (fun p => p.1 == k) with
    | none => rfl
    | some p => rw [lookupVal, hf] at h; cases h
  intro heq
  have := List.find?_eq_none.mp hfind e he
  rw [heq] at this
  simp at this

/-- C8 (amended).  The records persisted to `output.jsonl` are exactly one
per `Completed` line, in order — nothing is written for `Failed` or
`Canceled` lines — and, provided a line's output fields do not themselves
use the `line_number` key (the unamended claim fails otherwise, because
Python's `(LINE_NUMBER_KEY: index, **r.output)` lets an output field named
`line_number` override the index; see the counterexample), each record is
the line-number key bound to the line's index followed by all of the
line's output fields. -/
theorem C8_persisted_records (lrs : List LineResult)
    (hLN : ∀ r ∈ lrs, lookupVal LINE_NUMBER_KEY r.output = none)
    (hnd : ∀ r ∈ lrs, (r.output.map Prod.fst).Nodup) :
    persistedOutputs lrs =
      (lrs.filter (fun r => r.run_info.status == Status.Completed)).map
        (fun r => (LINE_NUMBER_KEY, Val.VInt (r.run_info.index : Int)) :: r.output)
    ∧ (persistedOutputs lrs).length =
        (lrs.filter (fun r => r.run_info.status == Status.Completed)).length
    ∧ (∀ r ∈ lrs, r.run_info.status = Status.Completed →
        lookupVal LINE_NUMBER_KEY
            ((LINE_NUMBER_KEY, Val.VInt (r.run_info.index : Int)) :: r.output) =
          some (Val.VInt (r.run_info.index : Int))
        ∧ ∀ k, k ≠ LINE_NUMBER_KEY →
            lookupVal k
                ((LINE_NUMBER_KEY, Val.VInt (r.run_info.index : Int)) :: r.output) =
              lookupVal k r.output)
    ∧ (∀ rec ∈ persistedOutputs lrs, ∃ r ∈ lrs,
        r.run_info.status = Status.Completed
        ∧ rec = (LINE_NUMBER_KEY, Val.VInt (r.run_info.index : Int)) :: r.output) := by
  have hmain : persistedOutputs lrs =
      (lrs.filter (fun r => r.run_info.status == Status.Completed)).map
        (fun r => (LINE_NUMBER_KEY, Val.VInt (r.run_info.index : Int)) :: r.output) := by
    unfold persistedOutputs
    apply List.map_congr_left
    intro r hr
    have hrl : r ∈ lrs := (List.mem_filter.mp hr).1
    rw [dictExtend_append r.output [(LINE_NUMBER_KEY, Val.VInt (r.run_info.index : Int))]
      ?_ (hnd r hrl)]
    · rfl
    · intro e he p hp
      have hp' : p = (LINE_NUMBER_KEY, Val.VInt (r.run_info.index : Int)) := by
        simpa using hp
      subst hp'
      intro heq
      exact keys_ne_of_lookup_none r.output LINE_NUMBER_KEY (hLN r hrl) e he heq.symm
  refine ⟨hmain, by rw [hmain, List.length_map], ?_, ?_⟩
  · intro r _ _
    constructor
    · simp [lookupVal, List.find?_cons]
    · intro k hk
      have hbeq : (LINE_NUMBER_KEY == k) = false :=
        beq_eq_false_iff_ne.mpr (fun h => hk h.symm)
      simp [lookupVal, List.find?_cons, hbeq]
  · intro rec hrec
    rw [hmain] at hrec
    obtain ⟨r, hr, rfl⟩ := List.mem_map.mp hrec
    obtain ⟨hrl, hst⟩ := List.mem_filter.mp hr
    exact ⟨r, hrl, by simpa using hst, rfl⟩

/-- Witness for C8: one completed and one failed line. -/
theorem C8_witness :
    ((∀ r ∈ ([⟨⟨0, Status.Completed, none⟩, [("a", Val.VStr "o")], []⟩,
        ⟨⟨1, Status.Failed, some "e"⟩, [("a", Val.VStr "x")], []⟩] : List LineResult),
        lookupVal LINE_NUMBER_KEY r.output = none)
      ∧ (∀ r ∈ ([⟨⟨0, Status.Completed, none⟩, [("a", Val.VStr "o")], []⟩,
          ⟨⟨1, Status.Failed, some "e"⟩, [("a", Val.VStr "x")], []⟩] : List LineResult),
          (r.output.map Prod.fst).Nodup))
    ∧ persistedOutputs
        [⟨⟨0, Status.Completed, none⟩, [("a", Val.VStr "o")], []⟩,
         ⟨⟨1, Status.Failed, some "e"⟩, [("a", Val.VStr "x")], []⟩] =
      (([⟨⟨0, Status.Completed, none⟩, [("a", Val.VStr "o")], []⟩,
         ⟨⟨1, Status.Failed, some "e"⟩, [("a", Val.VStr "x")], []⟩] : List LineResult).filter
          (fun r => r.run_info.status == Status.Completed)).map
        (fun r => (LINE_NUMBER_KEY, Val.VInt (r.run_info.index : Int)) :: r.output)
    ∧ (persistedOutputs
        [⟨⟨0, Status.Completed, none⟩, [("a", Val.VStr "o")], []⟩,
         ⟨⟨1, Status.Failed, some "e"⟩, [("a", Val.VStr "x")], []⟩]).length =
      (([⟨⟨0, Status.Completed, none⟩, [("a", Val.VStr "o")], []⟩,
         ⟨⟨1, Status.Failed, some "e"⟩, [("a", Val.VStr "x")], []⟩] : List LineResult).filter
          (fun r => r.run_info.status == Status.Completed)).length :=
  ⟨⟨by decide, by decide⟩,
   (C8_persisted_records
     [⟨⟨0, Status.Completed, none⟩, [("a", Val.VStr "o")], []⟩,
      ⟨⟨1, Status.Failed, some "e"⟩, [("a", Val.VStr "x")], []⟩]
     (by decide) (by decide)).1,
   (C8_persisted_records
     [⟨⟨0, Status.Completed, none⟩, [("a", Val.VStr "o")], []⟩,
      ⟨⟨1, Status.Failed, some "e"⟩, [("a", Val.VStr "x")], []⟩]
     (by decide) (by decide)).2.1⟩

/-- C8 counterexample.  A completed line at index 7 whose output itself
contains a `line_number` field: the Python dict literal
`(LINE_NUMBER_KEY: 7, **output)` lets the output's value 42 override the
index, so the persisted record does not carry the line's index. -/
theorem C8_counterexample_output_overrides_index :
    persistedOutputs
        [⟨⟨7, Status.Completed, none⟩, [("line_number", Val.VInt 42)], []⟩] =
      [[("line_number", Val.VInt 42)]]
    ∧ lookupVal LINE_NUMBER_KEY [("line_number", Val.VInt 42)] = some (Val.VInt 42)
    ∧ Val.VInt 42 ≠ Val.VInt 7 := by
  refine ⟨by decide, by decide, by decide⟩

/-- The attribute names ordinary Python attribute lookup finds on a plain
dict instance (a representative set of dict's methods).  Attribute access
on an `AttrDict` runs this ordinary lookup first; `__getattr__` is invoked
only when it fails, per Python's data-model semantics. -/
def dictAttributeNames : List String :=
  ["keys", "values", "items", "get", "pop", "popitem", "setdefault",
   "update", "clear", "copy", "fromkeys"]

/-- The two possible successful outcomes of `getattr` on an `AttrDict`: a
regular dict attribute (a bound method), or a value stored under a dict
key. -/
inductive AttrLookup where
  | attr (name : String)
  | val (v : Val)
deriving DecidableEq, Repr

/-- `AttrDict.__getattr__` (tests/utils.py lines 8-11) embedded together
with Python's attribute protocol: ordinary attribute lookup on the dict
object wins; only when it raises is `__getattr__` consulted, which returns
`self[item]` when `item in self` and otherwise re-runs the failing
ordinary lookup, raising `AttributeError`. -/
def attrDictGetattr (d : Input) (item : String) : Except String AttrLookup :=
  if item ∈ dictAttributeNames then .ok (.attr item)
  else match lookupVal item d with
    | some v => .ok (.val v)
    | none => .error "AttributeError"

/-- C10 (amended).  `d.k` returns `d[k]` for a key `k` present in `d`
provided `k` is not an ordinary dict attribute — dict attributes such as
`keys` take precedence, because `__getattr__` only runs after ordinary
lookup fails (the unamended claim, which promises `d[k]` for every present
key, fails on such names; see the counterexample).  For `k` neither a key
nor a dict attribute, the access raises `AttributeError`; for an ordinary
dict attribute it returns that attribute regardless of the dict's
contents. -/
theorem C10_attrdict_attribute_access (d : Input) (k : String)
    (hk : k ∉ dictAttributeNames) :
    (∀ v, lookupVal k d = some v → attrDictGetattr d k = .ok (.val v))
    ∧ (lookupVal k d = none → attrDictGetattr d k = .error "AttributeError")
    ∧ (∀ a, a ∈ dictAttributeNames → attrDictGetattr d a = .ok (.attr a)) := by
  refine ⟨?_, ?_, ?_⟩
  · intro v hv
    simp [attrDictGetattr, hk, hv]
  · intro hv
    simp [attrDictGetattr, hk, hv]
  · intro a ha
    simp [attrDictGetattr, ha]

/-- Witness for C10 at a one-entry dict and the non-attribute name "x". -/
theorem C10_witness :
    ("x" ∉ dictAttributeNames)
    ∧ ((∀ v, lookupVal "x" [("x", Val.VInt 1)] = some v →
        attrDictGetattr [("x", Val.VInt 1)] "x" = .ok (.val v))
      ∧ (lookupVal "x" [("x", Val.VInt 1)] = none →
        attrDictGetattr [("x", Val.VInt 1)] "x" = .error "AttributeError")
      ∧ (∀ a, a ∈ dictAttributeNames →
        attrDictGetattr [("x", Val.VInt 1)] a = .ok (.attr a))) :=
  ⟨by decide, C10_attrdict_attribute_access [("x", Val.VInt 1)] "x" (by decide)⟩

/-- C10 counterexample.  For `d = AttrDict(keys=5)`, the access `d.keys`
does not return `d["keys"]`: ordinary attribute lookup finds dict's `keys`
method first, so `__getattr__` — and with it the `item in self` branch —
never runs. -/
theorem C10_counterexample_attribute_shadows_key :
    attrDictGetattr [("keys", Val.VInt 5)] "keys" = .ok (.attr "keys")
    ∧ lookupVal "keys" [("keys", Val.VInt 5)] = some (Val.VInt 5)
    ∧ (Except.ok (AttrLookup.attr "keys") : Except String AttrLookup) ≠
        .ok (.val (Val.VInt 5)) := by
  refine ⟨by decide, by decide, by decide⟩

/-- Witness for C2: a concrete two-line batch completing out of order. -/
theorem C2_witness :
    ((∀ (inp : Input) (i : Nat),
        ((fun (_ : Input) (j : Nat) =>
          (⟨⟨j, Status.Completed, none⟩, [], []⟩ : LineResult)) inp i).run_info.index = i)
      ∧ ([1, 0] : List Nat).Perm
          (List.range ([[("x", Val.VStr "a")], [("x", Val.VStr "b")]] : List Input).length))
    ∧ ((∀ br file,
        exec ⟨[("x", ValueType.vtString)], [⟨"n", false⟩], []⟩ id
            (fun (_ : Input) (j : Nat) =>
              (⟨⟨j, Status.Completed, none⟩, [], []⟩ : LineResult))
            (fun _ _ => Except.ok emptyAggregationResult)
            [[("x", Val.VStr "a")], [("x", Val.VStr "b")]] [1, 0] false 3 7 =
          .ok (br, file) →
        br.lineResults = createdLineTasks
            (fun (_ : Input) (j : Nat) =>
              (⟨⟨j, Status.Completed, none⟩, [], []⟩ : LineResult))
            (([[("x", Val.VStr "a")], [("x", Val.VStr "b")]] : List Input).map id)
        ∧ br.lineResults.length =
            ([[("x", Val.VStr "a")], [("x", Val.VStr "b")]] : List Input).length
        ∧ br.lineResults.Pairwise leIdx)
      ∧ (([[("x", Val.VStr "a")], [("x", Val.VStr "b")]] : List Input) = [] →
          ((⟨[("x", ValueType.vtString)], [⟨"n", false⟩], []⟩ : PFlow).nodes.filter
            (fun n => n.aggregation)).isEmpty = true →
          exec ⟨[("x", ValueType.vtString)], [⟨"n", false⟩], []⟩ id
              (fun (_ : Input) (j : Nat) =>
                (⟨⟨j, Status.Completed, none⟩, [], []⟩ : LineResult))
              (fun _ _ => Except.ok emptyAggregationResult)
              [[("x", Val.VStr "a")], [("x", Val.VStr "b")]] [1, 0] false 3 7 =
            .ok (BatchResult.create 3 7 [] emptyAggregationResult none, []))) :=
  ⟨⟨fun _ _ => rfl, by decide⟩,
   C2_results_count_and_order ⟨[("x", ValueType.vtString)], [⟨"n", false⟩], []⟩ id
     (fun (_ : Input) (j : Nat) =>
       (⟨⟨j, Status.Completed, none⟩, [], []⟩ : LineResult))
     (fun _ _ => Except.ok emptyAggregationResult)
     [[("x", Val.VStr "a")], [("x", Val.VStr "b")]] [1, 0] false 3 7
     (fun _ _ => rfl) (by decide)⟩
